import Mathlib

/-!
Shallow embedding of `react-use-validation` (`src/index.tsx`): a React hook
`useValidation(rules, options)` that keeps a per-rule tri-state validation
result (`undefined` / `true` / `false`), exposes an explicit `validate`
dispatcher, and automatically revalidates rules whose input snapshot changed
(by deep structural equality) when `validateOnChange` is set.

The embedding makes the hook's mutable parts explicit:
  * the Result Store (`useState` record `Record<key, boolean | undefined>`)
    is a value of type `Store` threaded through the operations;
  * the change-detection baseline (`memoizedRuleDepsRef`) is a value of type
    `Option Deps`;
  * one run of the change-detector `useEffect` is the function `tick`.

JS input snapshots are idealized as `JsVal`: scalars plus composite values
carrying an identity tag, so that reference equality (Lean `=`, which sees
the tag) and deep structural equality (`dequal`, which ignores the tag) can
disagree, exactly as object identity and `dequal`/`deep-equal` do in JS.
-/

/-- Idealized JS value used as a rule's input snapshot. `obj id a b` models a
composite value (object/array) with allocation identity `id` and two
components; nesting `obj` gives arbitrary composites. Lean equality `=`
distinguishes identities (JS reference equality on composites), while
`dequal` below ignores them (deep structural equality). -/
inductive JsVal where
  | undefined : JsVal
  | bool : Bool → JsVal
  | num : Int → JsVal
  | str : String → JsVal
  | obj : Nat → JsVal → JsVal → JsVal
deriving DecidableEq, Repr

/-- JS `Boolean(v)` coercion: `undefined`, `false`, `0` and `""` are falsy;
composites are always truthy. Mirrors the `Boolean(rule(state))` wrap in
`validateRule`. -/
def truthy : JsVal → Bool
  | .undefined => false
  | .bool b => b
  | .num n => n != 0
  | .str s => s != ""
  | .obj _ _ _ => true

/-- Deep structural equality on snapshots, the embedding of `dequal` (in
`index.tsx`: `deepEqual` with `strict: true`): scalars compare by value,
composites compare componentwise and IGNORE the identity tag, and values of
different shapes are unequal (in particular `dequal undefined v = false` for any
non-`undefined` `v`, as in JS). -/
def dequal : JsVal → JsVal → Bool
  | .undefined, .undefined => true
  | .bool a, .bool b => a == b
  | .num a, .num b => a == b
  | .str a, .str b => a == b
  | .obj _ a b, .obj _ c d => dequal a c && dequal b d
  | _, _ => false

/-- First-match association-list lookup, the embedding of reading a property
`o[k]` of a JS record: `none` when the key is absent. -/
def lookupA {α : Type} : List (String × α) → String → Option α
  | [], _ => none
  | (k, v) :: rest, key => if k = key then some v else lookupA rest key

/-- A rule, `type Rule = [RuleState, (state: RuleState) => boolean]`: the
current input snapshot paired with the predicate. The predicate returns a
`JsVal` (JS functions can return anything); `validateRule` coerces with
`truthy`. -/
abbrev Rule := JsVal × (JsVal → JsVal)

/-- The Rule Registry `rules : Record<string, Rule>`, in `Object.keys`
(insertion) order. -/
abbrev Registry := List (String × Rule)

/-- The Result Store `results : Record<keyof TRules, boolean | undefined>`:
per rule name a tri-state, `none` embedding `undefined` (unvalidated). -/
abbrev Store := List (String × Option Bool)

/-- Change-detection snapshot set (`newDeps` / `memoizedRuleDepsRef.current`):
rule name to last-compared input snapshot. -/
abbrev Deps := List (String × JsVal)

/-- Reading `results[k]` in JS: an absent key and a key stored as `undefined`
both read back as `undefined`, hence the `Option.join`. -/
def lookupStore (s : Store) (k : String) : Option Bool :=
  (lookupA s k).join

/-- The JS record update `{ ...prev, [ruleKey]: isValid }`: an existing key
keeps its position and gets the new value, a fresh key is appended. -/
def setStore : Store → String → Bool → Store
  | [], k, b => [(k, some b)]
  | (k', v) :: rest, k, b =>
      if k' = k then (k', some b) :: rest else (k', v) :: setStore rest k b

/-- The deduplicated store write performed by the `setResults` updater inside
`validateRule`: `prev[ruleKey] === isValid` short-circuits to the SAME store
(no write, no notify); otherwise the result is written. -/
def writeResult (s : Store) (k : String) (b : Bool) : Store :=
  if lookupStore s k = some b then s else setStore s k b

/-- Outcome of evaluating a rule on its registered snapshot:
`Boolean(rule(state))` with `state = rules[k][0]`. -/
def ruleOutcome (r : Rule) : Bool :=
  truthy (r.2 r.1)

/-- The `useState` initializer: with `validateOnInit` each rule's result is
its predicate (coerced) on its initial snapshot, computed by `validateRule`
WITHOUT a `setResults` callback; otherwise every result starts `undefined`. -/
def initStore (reg : Registry) (validateOnInit : Bool) : Store :=
  reg.map (fun kr => (kr.1, if validateOnInit then some (ruleOutcome kr.2) else none))

/-- The `validate()` no-argument path: `Object.keys(rulesRef.current).map(k =>
validateRule(k, ..., setResults))` — evaluates every rule on its own current
snapshot in registry order, threading the (deduplicated) store writes, and
collects the boolean outcomes for the trailing `.every(Boolean)`. -/
def validateAllAux : Registry → Store → List Bool × Store
  | [], s => ([], s)
  | (k, r) :: rest, s =>
      let b := ruleOutcome r
      let p := validateAllAux rest (writeResult s k b)
      (b :: p.1, p.2)

/-- JS `state === undefined` test used by `validate` to decide between the
explicit-input override and the registered snapshot. -/
def isUndefined : JsVal → Bool
  | .undefined => true
  | _ => false

/-- The Validation Dispatcher `validate(ruleKey?, state?)`. An omitted JS
argument IS `undefined`, so the omitted-`state` call is `state = JsVal.undefined`
and the omitted-`ruleKey` call is `ruleKey = none`.
With a rule name: the code reads `rulesRef.current[ruleKey][1]` BEFORE the
`!rule` guard inside `validateRule` can run, so an unregistered name makes
the property access `[1]` on `undefined` throw a `TypeError`, embedded as
`Except.error ()`; a registered name evaluates the predicate on the explicit
input (or, when that is `undefined`, on the registered snapshot) and performs
the deduplicated store write. With no name: every registered rule is
evaluated and written, and the result is `.every(Boolean)` over the outcome
list. -/
def validate (reg : Registry) (store : Store) (ruleKey : Option String)
    (state : JsVal) : Except Unit (Bool × Store) :=
  match ruleKey with
  | some k =>
      match lookupA reg k with
      | none => .error ()
      | some r =>
          let st := if isUndefined state then r.1 else state
          let b := truthy (r.2 st)
          .ok (b, writeResult store k b)
  | none =>
      let p := validateAllAux reg store
      .ok (p.1.all id, p.2)

/-- The `valid` projection: `results[k] === true`. -/
def validView (s : Store) (k : String) : Bool :=
  lookupStore s k = some true

/-- The `invalid` projection: `results[k] === false`. -/
def invalidView (s : Store) (k : String) : Bool :=
  lookupStore s k = some false

/-- `newDeps`: the current snapshot set, one entry per registry key. -/
def newDeps (reg : Registry) : Deps :=
  reg.map (fun kr => (kr.1, kr.2.1))

/-- Reading `deps[k]` in JS yields `undefined` for an absent key; `dequal` is
then applied to that `undefined`. -/
def lookupDep (d : Deps) (k : String) : JsVal :=
  (lookupA d k).getD .undefined

/-- `rulesWithChangedDeps`: the source computes
`Object.keys(newDeps).map(k => !dequal(base[k], newDeps[k]) && k).filter(Boolean)`.
The `&& k` yields the key itself when the snapshot changed (`false`
otherwise), and `.filter(Boolean)` then keeps only TRUTHY keys — so a key is
listed exactly when its snapshot is not deep-equal to the baseline entry (an
absent baseline entry reads as `undefined`) AND the key is a non-empty
string: a changed rule named `""` is silently dropped. -/
def changedKeys (base nd : Deps) : List String :=
  (nd.map Prod.fst).filter
    (fun k => !dequal (lookupDep base k) (lookupDep nd k) && k != "")

/-- The `forEach` over changed keys: `validate(k, newDeps[k])` for each, in
order, threading the store. The `.error` branch is unreachable here (every
changed key is a registry key) but kept to make the function total. -/
def runChanged (reg : Registry) (ks : List String) (s : Store) : Store :=
  match ks with
  | [] => s
  | k :: rest =>
      runChanged reg rest
        (match validate reg s (some k) (lookupDep (newDeps reg) k) with
         | .ok p => p.2
         | .error _ => s)

/-- One run of the change-detector `useEffect` for the current registry:
build `newDeps`; on the first tick just store it as baseline (no comparison,
no validation); afterwards compute the changed keys, replace the baseline in
full iff some key changed, and, when `validateOnChange` is set, validate each
changed key with its NEW snapshot passed explicitly. Returns the new baseline
and the new store. -/
def tick (reg : Registry) (base : Option Deps) (store : Store)
    (validateOnChange : Bool) : Option Deps × Store :=
  let nd := newDeps reg
  match base with
  | none => (some nd, store)
  | some b =>
      let ck := changedKeys b nd
      let base' := if ck.isEmpty then some b else some nd
      let store' := if validateOnChange then runChanged reg ck store else store
      (base', store')

/-! ### Helper lemmas about lookups and writes -/

theorem lookupA_setStore_self (s : Store) (k : String) (b : Bool) :
    lookupA (setStore s k b) k = some (some b) := by
  induction s with
  | nil => simp [setStore, lookupA]
  | cons hd tl ih =>
      obtain ⟨k', v⟩ := hd
      by_cases h : k' = k
      · subst h
        simp [setStore, lookupA]
      · simp [setStore, h, lookupA, ih]

theorem lookupA_setStore_ne (s : Store) (k j : String) (b : Bool)
    (h : j ≠ k) : lookupA (setStore s k b) j = lookupA s j := by
  induction s with
  | nil => simp [setStore, lookupA, Ne.symm h]
  | cons hd tl ih =>
      obtain ⟨k', v⟩ := hd
      by_cases hk : k' = k
      · subst hk
        simp [setStore, lookupA, Ne.symm h]
      · simp [setStore, hk, lookupA, ih]

theorem lookupStore_setStore_self (s : Store) (k : String) (b : Bool) :
    lookupStore (setStore s k b) k = some b := by
  simp [lookupStore, lookupA_setStore_self]

theorem lookupStore_setStore_ne (s : Store) (k j : String) (b : Bool)
    (h : j ≠ k) : lookupStore (setStore s k b) j = lookupStore s j := by
  simp [lookupStore, lookupA_setStore_ne s k j b h]

theorem lookupStore_writeResult_self (s : Store) (k : String) (b : Bool) :
    lookupStore (writeResult s k b) k = some b := by
  unfold writeResult
  by_cases h : lookupStore s k = some b
  · rw [if_pos h]
    exact h
  · rw [if_neg h]
    exact lookupStore_setStore_self s k b

theorem lookupStore_writeResult_ne (s : Store) (k j : String) (b : Bool)
    (h : j ≠ k) : lookupStore (writeResult s k b) j = lookupStore s j := by
  unfold writeResult
  by_cases hc : lookupStore s k = some b
  · rw [if_pos hc]
  · rw [if_neg hc]
    exact lookupStore_setStore_ne s k j b h

theorem mem_keys_of_lookupA {α : Type} (l : List (String × α)) (k : String)
    (v : α) (h : lookupA l k = some v) : k ∈ l.map Prod.fst := by
  induction l with
  | nil => simp [lookupA] at h
  | cons hd tl ih =>
      obtain ⟨k', w⟩ := hd
      rw [List.map_cons, List.mem_cons]
      by_cases hk : k' = k
      · exact Or.inl hk.symm
      · simp only [lookupA, if_neg hk] at h
        exact Or.inr (ih h)

theorem lookupA_eq_none {α : Type} (l : List (String × α)) (k : String)
    (h : k ∉ l.map Prod.fst) : lookupA l k = none := by
  induction l with
  | nil => rfl
  | cons hd tl ih =>
      obtain ⟨k', w⟩ := hd
      simp only [List.map_cons, List.mem_cons, not_or] at h
      simp only [lookupA, if_neg (Ne.symm h.1)]
      exact ih h.2

/-! ### Helper lemmas about the dispatcher and the all-rules fold -/

theorem validate_ok_spec (reg : Registry) (s : Store) (key : String)
    (st : JsVal) (r : Rule) (hl : lookupA reg key = some r) :
    validate reg s (some key) st =
      .ok (truthy (r.2 (if isUndefined st then r.1 else st)),
        writeResult s key (truthy (r.2 (if isUndefined st then r.1 else st)))) := by
  simp only [validate, hl]

theorem validate_none_spec (reg : Registry) (s : Store) (key : String)
    (st : JsVal) (hl : lookupA reg key = none) :
    validate reg s (some key) st = .error () := by
  simp only [validate, hl]

theorem validateAllAux_fst_cons (k : String) (r : Rule) (rest : Registry)
    (s : Store) :
    (validateAllAux ((k, r) :: rest) s).1 =
      ruleOutcome r :: (validateAllAux rest (writeResult s k (ruleOutcome r))).1 :=
  rfl

theorem validateAllAux_snd_cons (k : String) (r : Rule) (rest : Registry)
    (s : Store) :
    (validateAllAux ((k, r) :: rest) s).2 =
      (validateAllAux rest (writeResult s k (ruleOutcome r))).2 :=
  rfl

theorem validateAllAux_fst (reg : Registry) (s : Store) :
    (validateAllAux reg s).1 = reg.map (fun kr => ruleOutcome kr.2) := by
  induction reg generalizing s with
  | nil => rfl
  | cons hd tl ih =>
      obtain ⟨k, r⟩ := hd
      rw [validateAllAux_fst_cons, List.map_cons, ih]

theorem validateAllAux_frame (reg : Registry) (s : Store) (k : String)
    (h : k ∉ reg.map Prod.fst) :
    lookupStore (validateAllAux reg s).2 k = lookupStore s k := by
  induction reg generalizing s with
  | nil => rfl
  | cons hd tl ih =>
      obtain ⟨k', r⟩ := hd
      simp only [List.map_cons, List.mem_cons, not_or] at h
      rw [validateAllAux_snd_cons, ih _ h.2,
        lookupStore_writeResult_ne _ _ _ _ h.1]

theorem validateAllAux_lookupStore (reg : Registry) (s : Store) (k : String)
    (r : Rule) (hnd : (reg.map Prod.fst).Nodup) (h : lookupA reg k = some r) :
    lookupStore (validateAllAux reg s).2 k = some (ruleOutcome r) := by
  induction reg generalizing s with
  | nil => simp [lookupA] at h
  | cons hd tl ih =>
      obtain ⟨k', r'⟩ := hd
      rw [List.map_cons, List.nodup_cons] at hnd
      rw [validateAllAux_snd_cons]
      by_cases hk : k' = k
      · subst hk
        simp [lookupA] at h
        subst h
        rw [validateAllAux_frame tl _ k' hnd.1]
        exact lookupStore_writeResult_self _ _ _
      · simp only [lookupA, if_neg hk] at h
        exact ih _ hnd.2 h

theorem lookupA_newDeps (reg : Registry) (k : String) :
    lookupA (newDeps reg) k = (lookupA reg k).map Prod.fst := by
  induction reg with
  | nil => rfl
  | cons hd tl ih =>
      obtain ⟨k', r⟩ := hd
      by_cases hk : k' = k
      · simp [newDeps, lookupA, hk]
      · simp only [newDeps, List.map_cons, lookupA, if_neg hk] at ih ⊢
        exact ih

theorem lookupDep_newDeps (reg : Registry) (k : String) (r : Rule)
    (h : lookupA reg k = some r) : lookupDep (newDeps reg) k = r.1 := by
  simp [lookupDep, lookupA_newDeps, h]

theorem dequal_undef_left (v : JsVal) :
    dequal .undefined v = true ↔ v = .undefined := by
  cases v <;> simp [dequal]

/-! ### Helper lemmas about the change-detector fold -/

theorem runChanged_cons (reg : Registry) (j : String) (rest : List String)
    (s : Store) :
    runChanged reg (j :: rest) s =
      runChanged reg rest
        (match validate reg s (some j) (lookupDep (newDeps reg) j) with
         | .ok p => p.2
         | .error _ => s) :=
  rfl

theorem runChanged_frame (reg : Registry) (ks : List String) (s : Store)
    (k : String) (h : k ∉ ks) :
    lookupStore (runChanged reg ks s) k = lookupStore s k := by
  induction ks generalizing s with
  | nil => rfl
  | cons j rest ih =>
      simp only [List.mem_cons, not_or] at h
      rw [runChanged_cons, ih _ h.2]
      cases hl : lookupA reg j with
      | none =>
          rw [validate_none_spec reg s j _ hl]
      | some r =>
          rw [validate_ok_spec reg s j _ r hl]
          exact lookupStore_writeResult_ne _ _ _ _ h.1

theorem runChanged_mem (reg : Registry) (ks : List String) (s : Store)
    (k : String) (r : Rule) (hnd : ks.Nodup) (hk : k ∈ ks)
    (hr : lookupA reg k = some r) :
    lookupStore (runChanged reg ks s) k = some (ruleOutcome r) := by
  induction ks generalizing s with
  | nil => simp at hk
  | cons j rest ih =>
      rw [List.nodup_cons] at hnd
      rw [runChanged_cons]
      by_cases hkj : k = j
      · subst hkj
        rw [runChanged_frame reg rest _ k hnd.1,
          validate_ok_spec reg s k _ r hr, lookupDep_newDeps reg k r hr,
          ite_self]
        exact lookupStore_writeResult_self _ _ _
      · rcases List.mem_cons.mp hk with h1 | h2
        · exact absurd h1 hkj
        · exact ih _ hnd.2 h2

theorem dequal_undef_false (v : JsVal) (h : v ≠ .undefined) :
    dequal .undefined v = false := by
  cases v <;> simp_all [dequal]

theorem newDeps_keys (reg : Registry) :
    (newDeps reg).map Prod.fst = reg.map Prod.fst := by
  induction reg with
  | nil => rfl
  | cons _ _ _ => simp [newDeps]

theorem all_map_id_outcomes (reg : Registry) :
    (reg.map (fun kr => ruleOutcome kr.2)).all id =
      reg.all (fun kr => ruleOutcome kr.2) := by
  induction reg with
  | nil => rfl
  | cons hd tl ih => simp [ih]

theorem lookupA_initStore (reg : Registry) (voi : Bool) (k : String) :
    lookupA (initStore reg voi) k =
      (lookupA reg k).map (fun r => if voi then some (ruleOutcome r) else none) := by
  induction reg with
  | nil => rfl
  | cons hd tl ih =>
      obtain ⟨k', r⟩ := hd
      by_cases hk : k' = k
      · simp [initStore, lookupA, hk]
      · simp only [initStore, List.map_cons, lookupA, if_neg hk] at ih ⊢
        exact ih

/-! ### Sample data used by witnesses and counterexamples -/

/-- The identity function as a caller-supplied predicate (its return value is
coerced with `truthy`, as `Boolean(rule(state))` does). -/
def idFn : JsVal → JsVal := fun v => v

/-- A one-rule registry: `{ a: [3, v => v] }`. -/
def sampleRule : Rule := (JsVal.num 3, idFn)

def sampleReg : Registry := [("a", sampleRule)]

/-- The two-rule registry of the spec scenario `{a: [1, x => x>0], b: [-1, ...]}`
rendered with truthiness: `a`'s snapshot is truthy, `b`'s is falsy. -/
def regAB : Registry := [("a", (JsVal.num 1, idFn)), ("b", (JsVal.num 0, idFn))]

/-! ### Claims -/

/-- C1: the spec says an unknown rule name passed to `validate` yields no
result and performs no Result-Store write — a silent no-op, not an exception.
The code instead evaluates `rulesRef.current[ruleKey][1]` BEFORE the
`!rule` guard inside `validateRule` can run, so for a name with no Registry
entry the property access `[1]` on `undefined` throws a `TypeError`
(embedded: `Except.error ()`), and the silent-no-op guard is dead code. This
theorem evaluates the code on that failure mode: every unregistered name
makes `validate` throw. -/
theorem c1_unknown_name_throws (reg : Registry) (store : Store) (k : String)
    (st : JsVal) (h : lookupA reg k = none) :
    validate reg store (some k) st = .error () :=
  validate_none_spec reg store k st h

theorem c1_unknown_name_throws_witness :
    validate sampleReg [] (some "zzz") JsVal.undefined = .error () :=
  c1_unknown_name_throws sampleReg [] "zzz" JsVal.undefined rfl

/-- C4: tri-state exclusivity. For EVERY Result-Store state (in particular
every state reachable by construction, explicit `validate` calls and
change-triggered validations) and every rule name, the `valid` view and the
`invalid` view are never both true: they test `results[k] === true` and
`results[k] === false` on the same stored tri-state. -/
theorem c4_tristate_exclusive (s : Store) (k : String) :
    (validView s k && invalidView s k) = false := by
  unfold validView invalidView
  cases h : lookupStore s k with
  | none => simp [h]
  | some b => cases b <;> simp [h]

/-- C5: idempotence of explicit validation with deduplicated writes. If a
call `validate(name, input)` on a registered `name` returned `b` and left the
store at `s₁`, the immediately repeated identical call again returns `b` and
returns the IDENTICAL store `s₁`: the recomputed outcome equals the stored
one, so the `prev[ruleKey] === isValid` dedup short-circuits the second write
to a no-op. -/
theorem c5_validate_idempotent (reg : Registry) (store : Store) (k : String)
    (r : Rule) (st : JsVal) (b : Bool) (s₁ : Store)
    (hr : lookupA reg k = some r)
    (h : validate reg store (some k) st = .ok (b, s₁)) :
    validate reg s₁ (some k) st = .ok (b, s₁) := by
  rw [validate_ok_spec reg store k st r hr] at h
  simp only [Except.ok.injEq, Prod.mk.injEq] at h
  have h1 := h.1
  have h2 := h.2
  rw [h1] at h2
  have hs : lookupStore s₁ k = some b := by
    rw [← h2]
    exact lookupStore_writeResult_self _ _ _
  rw [validate_ok_spec reg s₁ k st r hr, h1]
  unfold writeResult
  rw [if_pos hs]

theorem c5_validate_idempotent_witness :
    validate sampleReg [("a", some true)] (some "a") JsVal.undefined =
      .ok (true, [("a", some true)]) :=
  c5_validate_idempotent sampleReg [] "a" sampleRule JsVal.undefined true
    [("a", some true)] rfl rfl

/-- C7: the very first change-detection tick after construction (baseline not
yet set) never triggers automatic validation, whatever the options and
inputs: it only stores the current snapshot set as baseline and leaves the
Result Store untouched. -/
theorem c7_first_tick_no_validation (reg : Registry) (store : Store)
    (validateOnChange : Bool) :
    tick reg none store validateOnChange = (some (newDeps reg), store) :=
  rfl

/-- C8: immediately after construction with `validateOnInit = true` each
registered rule's stored result is the boolean coercion of its predicate on
its initial snapshot; with `validateOnInit = false` its result is the
unvalidated state `none`, so neither the valid nor the invalid view is true
for it. -/
theorem c8_init_results (reg : Registry) (k : String) (r : Rule)
    (h : lookupA reg k = some r) :
    lookupStore (initStore reg true) k = some (truthy (r.2 r.1)) ∧
    lookupStore (initStore reg false) k = none ∧
    validView (initStore reg false) k = false ∧
    invalidView (initStore reg false) k = false := by
  have ht : lookupStore (initStore reg true) k = some (truthy (r.2 r.1)) := by
    simp [lookupStore, lookupA_initStore, h, ruleOutcome]
  have hf : lookupStore (initStore reg false) k = none := by
    simp [lookupStore, lookupA_initStore, h]
  refine ⟨ht, hf, ?_, ?_⟩ <;> simp [validView, invalidView, hf]

theorem c8_init_results_witness :
    lookupStore (initStore sampleReg true) "a" =
      some (truthy (sampleRule.2 sampleRule.1)) ∧
    lookupStore (initStore sampleReg false) "a" = none ∧
    validView (initStore sampleReg false) "a" = false ∧
    invalidView (initStore sampleReg false) "a" = false :=
  c8_init_results sampleReg "a" sampleRule rfl

/-- C9: passing the literal `undefined` as the explicit input to
`validate(name, ...)` is indistinguishable from the no-explicit-input call
(`state === undefined` selects the registered snapshot), so the rule is
evaluated on its currently registered snapshot `r.1`, never on the passed
`undefined`: the result and the store write are exactly those of validating
the registered snapshot. -/
theorem c9_undef_explicit_input (reg : Registry) (store : Store) (k : String)
    (r : Rule) (h : lookupA reg k = some r) :
    validate reg store (some k) JsVal.undefined = validate reg store (some k) r.1 ∧
    validate reg store (some k) JsVal.undefined =
      .ok (ruleOutcome r, writeResult store k (ruleOutcome r)) := by
  constructor
  · rw [validate_ok_spec reg store k _ r h, validate_ok_spec reg store k _ r h]
    simp [isUndefined]
  · rw [validate_ok_spec reg store k _ r h]
    simp [isUndefined, ruleOutcome]

theorem c9_undef_explicit_input_witness :
    validate sampleReg [] (some "a") JsVal.undefined =
      validate sampleReg [] (some "a") sampleRule.1 ∧
    validate sampleReg [] (some "a") JsVal.undefined =
      .ok (ruleOutcome sampleRule, writeResult [] "a" (ruleOutcome sampleRule)) :=
  c9_undef_explicit_input sampleReg [] "a" sampleRule rfl

/-- C10: frame condition of a single-rule validation. A call
`validate(name, input)` on a registered `name` changes at most the Result
Store entry of `name`: every other name reads back unchanged afterwards. -/
theorem c10_validate_frame (reg : Registry) (store : Store) (k j : String)
    (r : Rule) (st : JsVal) (b : Bool) (s' : Store)
    (hr : lookupA reg k = some r) (hj : j ≠ k)
    (h : validate reg store (some k) st = .ok (b, s')) :
    lookupStore s' j = lookupStore store j := by
  rw [validate_ok_spec reg store k st r hr] at h
  simp only [Except.ok.injEq, Prod.mk.injEq] at h
  rw [← h.2]
  exact lookupStore_writeResult_ne _ _ _ _ hj

theorem c10_validate_frame_witness :
    lookupStore [("a", some true)] "b" = lookupStore [] "b" :=
  c10_validate_frame sampleReg [] "a" "b" sampleRule JsVal.undefined true
    [("a", some true)] rfl (by decide) rfl

/-- C2: `validate()` with no name evaluates every registered rule on that
rule's own current snapshot, writes each outcome to the Result Store (via the
deduplicated write), and returns `.every(Boolean)` — the logical AND across
all outcomes. Under the source's `Rule` type every registered rule has a
predicate, so every rule yields a boolean outcome and the AND ranges over all
of them (the "no result is excluded, not treated as false" proviso is
vacuous: no registered rule can yield no result). -/
theorem c2_validate_all (reg : Registry) (store : Store) (st : JsVal)
    (hnd : (reg.map Prod.fst).Nodup) :
    ∃ s' : Store,
      validate reg store none st =
        .ok (reg.all (fun kr => ruleOutcome kr.2), s') ∧
      ∀ k r, lookupA reg k = some r → lookupStore s' k = some (ruleOutcome r) := by
  refine ⟨(validateAllAux reg store).2, ?_, ?_⟩
  · simp only [validate]
    rw [validateAllAux_fst, all_map_id_outcomes]
  · intro k r h
    exact validateAllAux_lookupStore reg store k r hnd h

theorem c2_validate_all_witness :
    ∃ s' : Store,
      validate regAB [] none JsVal.undefined =
        .ok (regAB.all (fun kr => ruleOutcome kr.2), s') ∧
      ∀ k r, lookupA regAB k = some r → lookupStore s' k = some (ruleOutcome r) :=
  c2_validate_all regAB [] JsVal.undefined (by decide)

/-! Sample data for the change-detector claims. -/

/-- Baseline holding a composite snapshot with identity `0`. -/
def c6base : Deps := [("a", JsVal.obj 0 (JsVal.num 1) (JsVal.num 2))]

/-- The same rule re-supplied with a RECONSTRUCTED composite input: identity
`1`, identical contents. -/
def c6rule : Rule := (JsVal.obj 1 (JsVal.num 1) (JsVal.num 2), idFn)

def c6reg : Registry := [("a", c6rule)]

/-- C6: deep-structural change detection. If a rule's new snapshot is
`dequal` to its baseline entry (even when the two values are different
composites, i.e. not reference-identical), the change detector does not list
the rule as changed, and the tick — under any `validateOnChange` setting —
leaves that rule's stored result unchanged. -/
theorem c6_structural_equality_no_refire (reg : Registry) (b : Deps)
    (store : Store) (voc : Bool) (k : String) (r : Rule)
    (hr : lookupA reg k = some r)
    (hne : lookupDep b k ≠ r.1)
    (hdq : dequal (lookupDep b k) r.1 = true) :
    k ∉ changedKeys b (newDeps reg) ∧
    lookupStore (tick reg (some b) store voc).2 k = lookupStore store k := by
  have hkdep : lookupDep (newDeps reg) k = r.1 := lookupDep_newDeps reg k r hr
  have hmem : k ∉ changedKeys b (newDeps reg) := by
    simp only [changedKeys, List.mem_filter]
    rintro ⟨-, hp⟩
    rw [hkdep, hdq] at hp
    simp at hp
  refine ⟨hmem, ?_⟩
  cases voc with
  | false => rfl
  | true =>
      show lookupStore (runChanged reg (changedKeys b (newDeps reg)) store) k =
        lookupStore store k
      exact runChanged_frame reg _ store k hmem

theorem c6_structural_equality_no_refire_witness :
    "a" ∉ changedKeys c6base (newDeps c6reg) ∧
    lookupStore (tick c6reg (some c6base) [("a", some true)] true).2 "a" =
      lookupStore [("a", some true)] "a" :=
  c6_structural_equality_no_refire c6reg c6base [("a", some true)] true "a"
    c6rule rfl (by decide) rfl

/-! Sample data for C3: between ticks the registry gained a rule `b` (input
`5`), while the stored baseline still only has `a`. -/

def c3reg : Registry := [("a", (JsVal.num 1, idFn)), ("b", (JsVal.num 5, idFn))]

def c3base : Deps := [("a", JsVal.num 1)]

def c3store : Store := [("a", (none : Option Bool))]

/-- C3 counterexample: the claim says a rule newly added between ticks never
fires automatic validation on the tick it first appears. In the code the new
rule's baseline entry reads as `undefined`, `dequal(undefined, 5)` is false,
so the rule IS listed as changed and, with `validateOnChange` on, the tick
validates it and writes its result (`some true`) where the store previously
had no result. -/
theorem c3_new_rule_fires_cex :
    "b" ∈ changedKeys c3base (newDeps c3reg) ∧
    lookupStore c3store "b" = none ∧
    lookupStore (tick c3reg (some c3base) c3store true).2 "b" = some true :=
  ⟨by decide, rfl, rfl⟩

/-- C3 amended: a rule with a non-empty name that is present in the registry
but absent from the prior baseline is compared against `undefined` (the JS
read of a missing baseline key). It therefore counts as changed — and, with
`validateOnChange` enabled, automatic validation fires for it on the very
tick it first appears, writing its predicate's outcome on its (new)
snapshot — exactly when its input snapshot is not `undefined`. Only a new
rule whose input is itself `undefined` (or one whose name is the empty
string, which the `.filter(Boolean)` key-truthiness check drops) is not
fired. -/
theorem c3_new_rule_amended (reg : Registry) (b : Deps) (store : Store)
    (k : String) (r : Rule)
    (hk : k ≠ "")
    (hr : lookupA reg k = some r)
    (hb : lookupA b k = none)
    (hnd : (reg.map Prod.fst).Nodup) :
    ((k ∈ changedKeys b (newDeps reg)) ↔ r.1 ≠ JsVal.undefined) ∧
    (r.1 ≠ JsVal.undefined →
      lookupStore (tick reg (some b) store true).2 k = some (ruleOutcome r)) := by
  have hkdep : lookupDep (newDeps reg) k = r.1 := lookupDep_newDeps reg k r hr
  have hbdep : lookupDep b k = JsVal.undefined := by simp [lookupDep, hb]
  have hmemk : k ∈ (newDeps reg).map Prod.fst := by
    rw [newDeps_keys]
    exact mem_keys_of_lookupA reg k r hr
  have hiff : (k ∈ changedKeys b (newDeps reg)) ↔ r.1 ≠ JsVal.undefined := by
    simp only [changedKeys, List.mem_filter]
    constructor
    · rintro ⟨-, hp⟩ hcon
      rw [hbdep, hkdep, hcon] at hp
      simp [dequal] at hp
    · intro hne
      refine ⟨hmemk, ?_⟩
      rw [hbdep, hkdep, dequal_undef_false _ hne]
      simp [hk]
  refine ⟨hiff, fun hne => ?_⟩
  have hck : k ∈ changedKeys b (newDeps reg) := hiff.mpr hne
  have hcknd : (changedKeys b (newDeps reg)).Nodup := by
    unfold changedKeys
    rw [newDeps_keys]
    exact hnd.filter _
  show lookupStore (runChanged reg (changedKeys b (newDeps reg)) store) k =
    some (ruleOutcome r)
  exact runChanged_mem reg _ store k r hcknd hck hr

theorem c3_new_rule_amended_witness :
    (("b" ∈ changedKeys c3base (newDeps c3reg)) ↔
      (JsVal.num 5, idFn).1 ≠ JsVal.undefined) ∧
    ((JsVal.num 5, idFn).1 ≠ JsVal.undefined →
      lookupStore (tick c3reg (some c3base) c3store true).2 "b" =
        some (ruleOutcome (JsVal.num 5, idFn))) :=
  c3_new_rule_amended c3reg c3base c3store "b" (JsVal.num 5, idFn) (by decide)
    rfl rfl (by decide)
